import Mathlib

/-!
# A shallow embedding of the jitterz measurement engine

jitterz busy-spins on a pinned CPU, classifies gaps between consecutive
timestamp readings into a 16-entry exponential histogram, and self-calibrates
its ticks-per-second conversion through repeated fixed-duration passes.

The definitions below mirror, line by line, the canonical variant in
`src/jitterz.c` (the one with `initialize_buckets` / `update_buckets`,
`mlockall`, and the scheduling-policy options), and - in the `NsVar`
namespace - the nanosecond-threshold variant in `src/unnamed/part_000`
(the one with a configurable `--duration` and a two-span overflow guard).
All `uint64_t` arithmetic is modelled as `Nat` with explicit reduction
modulo `2 ^ 64`.  The measured wall-clock duration (a C `double` fed only
to comparisons and one division) is modelled as an exact rational input.
-/

/-- The modulus `2 ^ 64` of the C `uint64_t` arithmetic. -/
def U64 : Nat := 2 ^ 64

/-- Wrapping `uint64_t` subtraction `a - b` for `a b < U64`. -/
def sub64 (a b : Nat) : Nat := (U64 + a - b) % U64

/-- One histogram bucket, `struct bucket` in jitterz.c: a lower tick boundary
(`tick_boundry`, inclusive) and an occurrence count. -/
structure Bucket where
  tick_boundry : Nat
  count : Nat
deriving Repr, DecidableEq

/-- The measurement state of jitterz.c that the histogram operations touch:
the 16-bucket array `b`, the global `accumulated_lost_ticks`, and the
minimum-gap threshold `delta_tick_min`. -/
structure JState where
  b : List Bucket
  accumulated_lost_ticks : Nat
  delta_tick_min : Nat
deriving Repr, DecidableEq

/-- The assignment `delta_tick_min = (delta_time * frequency_start) / 1000000` in main,
with the `uint64_t` product wrapping modulo `2 ^ 64`. -/
def delta_tick_min_of (delta_time fs : Nat) : Nat :=
  delta_time * fs % U64 / 1000000

/-- The boundary of bucket `i` as produced by the `initialize_buckets` loop:
`b[0].tick_boundry = delta_tick_min` and
`b[i].tick_boundry = b[i-1].tick_boundry * 2` in `uint64_t` arithmetic. -/
def bucketBoundary (dtm : Nat) : Nat → Nat
  | 0 => dtm
  | i + 1 => bucketBoundary dtm i * 2 % U64

/-- The function `initialize_buckets` of jitterz.c: all 16 counts zeroed, boundary 0 set to
`delta_tick_min`, and each later boundary twice its predecessor (`uint64_t`). -/
def initialize_buckets (dtm : Nat) : List Bucket :=
  [ ⟨bucketBoundary dtm 0, 0⟩, ⟨bucketBoundary dtm 1, 0⟩,
    ⟨bucketBoundary dtm 2, 0⟩, ⟨bucketBoundary dtm 3, 0⟩,
    ⟨bucketBoundary dtm 4, 0⟩, ⟨bucketBoundary dtm 5, 0⟩,
    ⟨bucketBoundary dtm 6, 0⟩, ⟨bucketBoundary dtm 7, 0⟩,
    ⟨bucketBoundary dtm 8, 0⟩, ⟨bucketBoundary dtm 9, 0⟩,
    ⟨bucketBoundary dtm 10, 0⟩, ⟨bucketBoundary dtm 11, 0⟩,
    ⟨bucketBoundary dtm 12, 0⟩, ⟨bucketBoundary dtm 13, 0⟩,
    ⟨bucketBoundary dtm 14, 0⟩, ⟨bucketBoundary dtm 15, 0⟩ ]

/-- The per-attempt reset in main (`accumulated_lost_ticks = 0;
initialize_buckets();` after recomputing `delta_tick_min`). -/
def resetState (dtm : Nat) : JState :=
  { b := initialize_buckets dtm, accumulated_lost_ticks := 0, delta_tick_min := dtm }

/-- The scan `for (i = NUMBER_BUCKETS; i > 0; i--) if (ticks >= b[i-1].tick_boundry)
break;` of `update_buckets`: returns the index whose count gets incremented,
or `none` when no bucket boundary is `<=` the gap. -/
def findBucketAux (ticks : Nat) (bs : List Bucket) : Nat → Option Nat
  | 0 => none
  | i + 1 =>
    if (bs.getD i ⟨0, 0⟩).tick_boundry ≤ ticks then some i
    else findBucketAux ticks bs i

/-- The function `update_buckets(uint64_t ticks)` of jitterz.c: a no-op below
`delta_tick_min`; otherwise the gap is added to `accumulated_lost_ticks`
(`uint64_t` addition) and the downward scan increments the first bucket,
from index 15 down, whose boundary is `<=` the gap. -/
def update_buckets (ticks : Nat) (st : JState) : JState :=
  if st.delta_tick_min ≤ ticks then
    let alt := (st.accumulated_lost_ticks + ticks) % U64
    match findBucketAux ticks st.b 16 with
    | some j =>
      let old := st.b.getD j ⟨0, 0⟩
      { st with
        accumulated_lost_ticks := alt
        b := st.b.set j { old with count := (old.count + 1) % U64 } }
    | none => { st with accumulated_lost_ticks := alt }
  else st

/-- Replaying a sequence of gap values through `update_buckets`. -/
def recordAll (gs : List Nat) (st : JState) : JState :=
  gs.foldl (fun s g => update_buckets g s) st

/-! ## The busy-spin loop of jitterz.c -/

/-- The inner spin loop of jitterz.c main
(`s = time_stamp_counter(); if (s == so) continue; d = s - so;
update_buckets(d); if (s >= e) break; so = s;`), consuming successive
timestamp readings from a list.  `some (st, s, rest)` is the `break` with the
crossing reading `s >= e` and the unconsumed readings `rest`; `none` means the
modelled reading list ran out while the loop would still be spinning. -/
def spin (e : Nat) : Nat → JState → List Nat → Option (JState × Nat × List Nat)
  | _, _, [] => none
  | so, st, s :: rest =>
    if s = so then spin e so st rest
    else
      let st' := update_buckets (sub64 s so) st
      if e ≤ s then some (st', s, rest)
      else spin e s st' rest

/-- The sequence of gaps the spin loop feeds to `update_buckets`, in order. -/
def spinGaps (e : Nat) : Nat → List Nat → List Nat
  | _, [] => []
  | so, s :: rest =>
    if s = so then spinGaps e so rest
    else if e ≤ s then [sub64 s so]
    else sub64 s so :: spinGaps e s rest

/-! ## Final output of jitterz.c -/

/-- The printed output and exit status of jitterz.c main after the
calibration loop exits. -/
structure FinalReport where
  bucketLines : List Nat
  lostTime : ℚ
  exitCode : Nat
deriving Repr, DecidableEq

/-- The output tail of jitterz.c main: one `printf` line per bucket
(`b[j].count` for j = 0..15 in index order), then
`Lost time = (double)accumulated_lost_ticks / (double)frequency_start`,
then `return 0`. -/
def finalReport (st : JState) (fs : Nat) : FinalReport :=
  { bucketLines := st.b.map Bucket.count
    lostTime := (st.accumulated_lost_ticks : ℚ) / (fs : ℚ)
    exitCode := 0 }

/-! ## The calibration loop of jitterz.c -/

/-- Outcome of the post-pass decision in jitterz.c main: exit the
`while (frequency_start != frequency_end)` loop and accept the pass as the
final result, or run another pass with the given `frequency_run` and
`frequency_end` values. -/
inductive StepResult where
  | accept : StepResult
  | retry (fr fe : Nat) : StepResult
deriving Repr, DecidableEq

/-- The decision logic after one completed pass of jitterz.c main:
`if ((fabs(sec - rt) / (double)rt) > 0.01) { if (fre > frs) { frequency_run =
(fre - frs) / (1000 * sec); frequency_end = frequency_run * 1000; } goto
retry; } if (!frequency_run) { frequency_end = read * 1000; }` followed by
the `while (frequency_start != frequency_end)` condition.  `fs` is
`frequency_start` (already scaled by 1000), `reread` the confirming
`read_cpu_current_frequency` value consumed when `frequency_run` is 0.
The `uint64_t` result of the C double division truncates toward zero. -/
def calibrationStep (rt : Nat) (sec : ℚ) (frs fre fr fs fe reread : Nat) :
    StepResult :=
  if |sec - (rt : ℚ)| / (rt : ℚ) > 1 / 100 then
    if frs < fre then
      let fr' := (⌊((fre - frs : Nat) : ℚ) / (1000 * sec)⌋).toNat
      StepResult.retry fr' (fr' * 1000 % U64)
    else StepResult.retry fr fe
  else
    let fe' := if fr = 0 then reread * 1000 % U64 else fe
    if fs = fe' then StepResult.accept else StepResult.retry fr fe'

/-- Outcome of one iteration of the `for (i = 0; i < rt; i++)` loop. -/
inductive IterOut where
  | abort : IterOut
  | ok (st : JState) (rs : List Nat) : IterOut
deriving Repr, DecidableEq

/-- The `for (i = 0; i < rt; i++)` loop of jitterz.c main: each iteration
reads a start tick `s`, computes `e = s + frequency_start` (`uint64_t`), on
`e < s` jumps to `retry` (abort), and otherwise busy-spins until a reading
crosses `e`.  `none` is the model artifact of the reading list running out. -/
def runItersJ (fs : Nat) : Nat → JState → List Nat → Option IterOut
  | 0, st, rs => some (IterOut.ok st rs)
  | n + 1, st, rs =>
    match rs with
    | [] => none
    | s :: rest =>
      let e := (s + fs) % U64
      if e < s then some IterOut.abort
      else
        match spin e s st rest with
        | none => none
        | some (st', _, rs') => runItersJ fs n st' rs'

/-- Outcome of one whole sampling pass. -/
inductive PassOut where
  | abort : PassOut
  | ok (st : JState) (frs fre : Nat) : PassOut
deriving Repr, DecidableEq

/-- One full sampling pass of jitterz.c main: read `frs`, run the `rt`
iterations, read `fre`. -/
def runPassJ (fs rt : Nat) (st0 : JState) (rs : List Nat) : Option PassOut :=
  match rs with
  | [] => none
  | frs :: rest =>
    match runItersJ fs rt st0 rest with
    | none => none
    | some IterOut.abort => some PassOut.abort
    | some (IterOut.ok st rs') =>
      match rs' with
      | [] => none
      | fre :: _ => some (PassOut.ok st frs fre)

/-- The external observations consumed by one pass of jitterz.c main: the
sysfs frequency read at the start of the pass (used when `frequency_run` is
0), the timestamp-counter readings, the measured wall-clock seconds, and the
confirming sysfs read at the end of the pass. -/
structure PassInput where
  freqRead : Nat
  readings : List Nat
  sec : ℚ
  reread : Nat

/-- The `while (frequency_start != frequency_end)` calibration loop of
jitterz.c main over a list of per-pass observations, carrying
(`frequency_run`, `frequency_start` in kHz, `frequency_end`).  The histogram state of the accepted
pass and its `frequency_start` (in Hz) are the result;
`none` means the modelled observation list ran out. -/
def calRunJ (rt : Nat) : Nat → Nat → Nat → List PassInput → Option (JState × Nat)
  | _, _, _, [] => none
  | fr, fs, fe, p :: rest =>
    let fs1 := if fr = 0 then p.freqRead else fr
    let fe1 := if fr = 0 then 0 else fe
    let fsX := fs1 * 1000 % U64
    match runPassJ fsX rt (resetState (delta_tick_min_of 1500 fs1)) p.readings with
    | none => none
    | some PassOut.abort => calRunJ rt fr fs1 fe1 rest
    | some (PassOut.ok st frs fre) =>
      match calibrationStep rt p.sec frs fre fr fsX fe1 p.reread with
      | StepResult.accept => some (st, fsX)
      | StepResult.retry fr' fe' => calRunJ rt fr' fs1 fe' rest

/-! ## The nanosecond-threshold variant of src/unnamed/part_000

This variant has `delta_time = 500` nanoseconds, an extra per-bucket
`time_boundry`, a do-while calibration loop driven by the relative frequency
difference, and - the part claim C3 is about - a two-span overflow guard
`tick_overflow = end_tick + frequency_start; if (tick_overflow < tick) goto
retry;` executed before each one-second iteration. -/

namespace NsVar

/-- The `struct bucket` of the variant: tick boundary, count, and a parallel
nanosecond time boundary used only for output. -/
structure Bucket where
  tick_boundry : Nat
  count : Nat
  time_boundry : Nat
deriving Repr, DecidableEq

/-- The histogram state of the variant. -/
structure St where
  b : List Bucket
  accumulated_lost_ticks : Nat
  delta_tick_min : Nat
deriving Repr, DecidableEq

/-- The function `initialize_buckets` of the variant: counts zeroed, tick boundaries
doubling from `delta_tick_min`, time boundaries doubling from `delta_time`. -/
def initialize_buckets (dt dtm : Nat) : List Bucket :=
  [ ⟨bucketBoundary dtm 0, 0, bucketBoundary dt 0⟩,
    ⟨bucketBoundary dtm 1, 0, bucketBoundary dt 1⟩,
    ⟨bucketBoundary dtm 2, 0, bucketBoundary dt 2⟩,
    ⟨bucketBoundary dtm 3, 0, bucketBoundary dt 3⟩,
    ⟨bucketBoundary dtm 4, 0, bucketBoundary dt 4⟩,
    ⟨bucketBoundary dtm 5, 0, bucketBoundary dt 5⟩,
    ⟨bucketBoundary dtm 6, 0, bucketBoundary dt 6⟩,
    ⟨bucketBoundary dtm 7, 0, bucketBoundary dt 7⟩,
    ⟨bucketBoundary dtm 8, 0, bucketBoundary dt 8⟩,
    ⟨bucketBoundary dtm 9, 0, bucketBoundary dt 9⟩,
    ⟨bucketBoundary dtm 10, 0, bucketBoundary dt 10⟩,
    ⟨bucketBoundary dtm 11, 0, bucketBoundary dt 11⟩,
    ⟨bucketBoundary dtm 12, 0, bucketBoundary dt 12⟩,
    ⟨bucketBoundary dtm 13, 0, bucketBoundary dt 13⟩,
    ⟨bucketBoundary dtm 14, 0, bucketBoundary dt 14⟩,
    ⟨bucketBoundary dtm 15, 0, bucketBoundary dt 15⟩ ]

/-- The per-attempt reset: `accumulated_lost_ticks = 0; initialize_buckets();`. -/
def resetN (dt dtm : Nat) : St :=
  { b := initialize_buckets dt dtm, accumulated_lost_ticks := 0, delta_tick_min := dtm }

/-- The downward bucket scan of the variant (same code as in jitterz.c). -/
def findBucketAux (ticks : Nat) (bs : List Bucket) : Nat → Option Nat
  | 0 => none
  | i + 1 =>
    if (bs.getD i ⟨0, 0, 0⟩).tick_boundry ≤ ticks then some i
    else findBucketAux ticks bs i

/-- The function `update_buckets` of the variant (same code as in jitterz.c). -/
def update_buckets (ticks : Nat) (st : St) : St :=
  if st.delta_tick_min ≤ ticks then
    let alt := (st.accumulated_lost_ticks + ticks) % U64
    match findBucketAux ticks st.b 16 with
    | some j =>
      let old := st.b.getD j ⟨0, 0, 0⟩
      { st with
        accumulated_lost_ticks := alt
        b := st.b.set j { old with count := (old.count + 1) % U64 } }
    | none => { st with accumulated_lost_ticks := alt }
  else st

/-- The spin loop of the variant, `while (tick < end_tick) { tick =
time_stamp_counter(); if (tick == old_tick) continue; update_buckets(tick -
old_tick); old_tick = tick; }`, consuming readings from a list; `none` is
the model artifact of the list running out while the loop would continue. -/
def spinN (e : Nat) : Nat → Nat → St → List Nat → Option (St × List Nat)
  | tick, _, st, [] => if e ≤ tick then some (st, []) else none
  | tick, old, st, s :: rest =>
    if e ≤ tick then some (st, s :: rest)
    else if s = old then spinN e s old st rest
    else spinN e s s (update_buckets (sub64 s old) st) rest

/-- Outcome of one iteration of the `for` loop of the variant over run seconds. -/
inductive IterOut where
  | abort : IterOut
  | ok (st : St) (rs : List Nat) : IterOut
deriving Repr, DecidableEq

/-- One iteration of the run loop of the variant: read the start tick, compute
`end_tick = tick + frequency_start` and `tick_overflow = end_tick +
frequency_start` (both `uint64_t`), jump to `retry` (abort) when
`tick_overflow < tick`, else spin until `end_tick`. -/
def iterN (fs : Nat) (st : St) (rs : List Nat) : Option IterOut :=
  match rs with
  | [] => none
  | t :: rest =>
    let end_tick := (t + fs) % U64
    let tick_overflow := (end_tick + fs) % U64
    if tick_overflow < t then some IterOut.abort
    else
      match spinN end_tick t t st rest with
      | none => none
      | some (st', rs') => some (IterOut.ok st' rs')

/-- The `for (i = 0; i < run_time; i++)` loop of the variant. -/
def runItersN (fs : Nat) : Nat → St → List Nat → Option IterOut
  | 0, st, rs => some (IterOut.ok st rs)
  | n + 1, st, rs =>
    match iterN fs st rs with
    | none => none
    | some IterOut.abort => some IterOut.abort
    | some (IterOut.ok st' rs') => runItersN fs n st' rs'

/-- Outcome of one whole pass of the variant. -/
inductive PassOut where
  | abort : PassOut
  | ok (st : St) (ts te : Nat) : PassOut
deriving Repr, DecidableEq

/-- One whole pass: read `test_tick_start`, run the iterations, read
`test_tick_end`, and jump to `retry` (abort) when `test_tick_end <
test_tick_start`. -/
def onePassN (fs rt : Nat) (st0 : St) (rs : List Nat) : Option PassOut :=
  match rs with
  | [] => none
  | ts :: rest =>
    match runItersN fs rt st0 rest with
    | none => none
    | some IterOut.abort => some PassOut.abort
    | some (IterOut.ok st rs') =>
      match rs' with
      | [] => none
      | te :: _ =>
        if te < ts then some PassOut.abort
        else some (PassOut.ok st ts te)

/-- The observations consumed by one pass of the variant: the timestamp
readings and the measured wall-clock duration. -/
structure PassInput where
  readings : List Nat
  sec : ℚ

/-- The do-while calibration loop of the variant: on a retry caused by the
overflow guard, `frequency_run` is left untouched; on a completed pass
`frequency_run = (test_tick_end - test_tick_start) / real_duration` and the
loop repeats while `fabs(frequency_run - frequency_start) /
frequency_start` exceeds the 0.01 tolerance. -/
def calRunN (rt : Nat) : Nat → Nat → List PassInput → Option (St × Nat)
  | _, _, [] => none
  | fr, fs, p :: rest =>
    let fs1 := if fr = 0 then fs else fr
    let dtm := 500 * fs1 % U64 / 1000000000
    match onePassN fs1 rt (resetN 500 dtm) p.readings with
    | none => none
    | some PassOut.abort => calRunN rt fr fs1 rest
    | some (PassOut.ok st ts te) =>
      let fr' := (⌊((te - ts : Nat) : ℚ) / p.sec⌋).toNat
      if |((fr' : ℚ)) - ((fs1 : ℚ))| / ((fs1 : ℚ)) > 1 / 100 then
        calRunN rt fr' fs1 rest
      else some (st, fr')

end NsVar

/-! ## Theorems -/

/-! ## Basic facts about the bucket array -/

theorem initialize_buckets_length (dtm : Nat) : (initialize_buckets dtm).length = 16 := rfl

theorem initialize_buckets_getD (dtm : Nat) (i : Nat) (h : i < 16) :
    (initialize_buckets dtm).getD i ⟨0, 0⟩ = ⟨bucketBoundary dtm i, 0⟩ := by
  interval_cases i <;> rfl

theorem bucketBoundary_no_overflow (dtm : Nat) (h : dtm * 2 ^ 15 < U64) :
    ∀ i, i ≤ 15 → bucketBoundary dtm i = dtm * 2 ^ i := by
  intro i
  induction i with
  | zero => intro _; simp [bucketBoundary]
  | succ n ih =>
    intro hn
    have hle : dtm * 2 ^ (n + 1) ≤ dtm * 2 ^ 15 :=
      Nat.mul_le_mul_left dtm (Nat.pow_le_pow_right (by omega) hn)
    have hcf := ih (by omega)
    simp only [bucketBoundary, hcf]
    rw [Nat.mod_eq_of_lt]
    · ring
    · calc dtm * 2 ^ n * 2 = dtm * 2 ^ (n + 1) := by ring
        _ < U64 := lt_of_le_of_lt hle h

theorem initialize_buckets_strict (dtm : Nat) (h0 : 0 < dtm) (h : dtm * 2 ^ 15 < U64)
    (i j : Nat) (hij : i < j) (hj : j < 16) :
    ((initialize_buckets dtm).getD i ⟨0, 0⟩).tick_boundry
      < ((initialize_buckets dtm).getD j ⟨0, 0⟩).tick_boundry := by
  rw [initialize_buckets_getD dtm i (by omega), initialize_buckets_getD dtm j hj]
  simp only
  rw [bucketBoundary_no_overflow dtm h i (by omega),
    bucketBoundary_no_overflow dtm h j (by omega)]
  exact mul_lt_mul_of_pos_left (Nat.pow_lt_pow_right (by omega : 1 < 2) hij) h0

theorem getD_set_ne (l : List Bucket) (j i : Nat) (x d : Bucket) (h : i ≠ j) :
    (l.set j x).getD i d = l.getD i d := by
  simp [List.getD, List.getElem?_set_ne (by omega : j ≠ i)]

theorem getD_set_self (l : List Bucket) (j : Nat) (x d : Bucket) (h : j < l.length) :
    (l.set j x).getD j d = x := by
  simp [List.getD, List.getElem?_set_eq_of_lt x h]

/-- The operation `update_buckets` never touches any `tick_boundry` field. -/
theorem update_buckets_boundry (g : Nat) (st : JState) (i : Nat) :
    (((update_buckets g st).b.getD i ⟨0, 0⟩).tick_boundry)
      = ((st.b.getD i ⟨0, 0⟩).tick_boundry) := by
  unfold update_buckets
  split
  · split
    · rename_i j hj
      by_cases hij : i = j
      · subst hij
        by_cases hlen : i < st.b.length
        · simp only [getD_set_self st.b i _ _ hlen]
        · rw [List.getD_eq_default, List.getD_eq_default]
          · omega
          · simpa using (by omega : st.b.length ≤ i)
      · simp only [getD_set_ne st.b j i _ _ hij]
    · rfl
  · rfl

/-- The operation `update_buckets` never changes `delta_tick_min`. -/
theorem update_buckets_dtm (g : Nat) (st : JState) :
    (update_buckets g st).delta_tick_min = st.delta_tick_min := by
  unfold update_buckets
  split
  · split <;> rfl
  · rfl

/-- The operation `update_buckets` never changes the number of buckets. -/
theorem update_buckets_length (g : Nat) (st : JState) :
    (update_buckets g st).b.length = st.b.length := by
  unfold update_buckets
  split
  · split
    · simp
    · rfl
  · rfl

/-- Every bucket count is zero after a reset (also beyond index 15, where
`getD` yields the default bucket). -/
theorem reset_count_zero (dtm i : Nat) :
    ((resetState dtm).b.getD i ⟨0, 0⟩).count = 0 := by
  by_cases hi : i < 16
  · rw [show (resetState dtm).b = initialize_buckets dtm from rfl,
      initialize_buckets_getD dtm i hi]
  · rw [List.getD_eq_default]
    have hlen : (resetState dtm).b.length = 16 := rfl
    omega

/-- C4: after every histogram reset (any `frequency_start` value `fs`) there
are exactly 16 buckets; the boundary of bucket 0 is
`delta_time * fs / 1000000` in `uint64_t` arithmetic; every later boundary is
twice its predecessor in `uint64_t` arithmetic - exactly twice whenever the
doubling chain does not overflow; and all counts and `accumulated_lost_ticks`
are zero. -/
theorem reset_shape (fs : Nat) :
    ((resetState (delta_tick_min_of 1500 fs)).b.length = 16) ∧
    (((resetState (delta_tick_min_of 1500 fs)).b.getD 0 ⟨0, 0⟩).tick_boundry
       = 1500 * fs % U64 / 1000000) ∧
    (∀ i, i + 1 < 16 →
      ((resetState (delta_tick_min_of 1500 fs)).b.getD (i + 1) ⟨0, 0⟩).tick_boundry
        = ((resetState (delta_tick_min_of 1500 fs)).b.getD i ⟨0, 0⟩).tick_boundry
            * 2 % U64) ∧
    (∀ i, ((resetState (delta_tick_min_of 1500 fs)).b.getD i ⟨0, 0⟩).count = 0) ∧
    ((resetState (delta_tick_min_of 1500 fs)).accumulated_lost_ticks = 0) ∧
    (delta_tick_min_of 1500 fs * 2 ^ 15 < U64 →
      ∀ i, i + 1 < 16 →
        ((resetState (delta_tick_min_of 1500 fs)).b.getD (i + 1) ⟨0, 0⟩).tick_boundry
          = 2 * ((resetState (delta_tick_min_of 1500 fs)).b.getD i ⟨0, 0⟩).tick_boundry) := by
  refine ⟨rfl, ?_, ?_, fun i => reset_count_zero _ i, rfl, ?_⟩
  · rw [show (resetState (delta_tick_min_of 1500 fs)).b
        = initialize_buckets (delta_tick_min_of 1500 fs) from rfl,
      initialize_buckets_getD _ 0 (by omega)]
    rfl
  · intro i hi
    rw [show (resetState (delta_tick_min_of 1500 fs)).b
        = initialize_buckets (delta_tick_min_of 1500 fs) from rfl,
      initialize_buckets_getD _ (i + 1) hi, initialize_buckets_getD _ i (by omega)]
    rfl
  · intro hov i hi
    rw [show (resetState (delta_tick_min_of 1500 fs)).b
        = initialize_buckets (delta_tick_min_of 1500 fs) from rfl,
      initialize_buckets_getD _ (i + 1) hi, initialize_buckets_getD _ i (by omega)]
    simp only
    rw [bucketBoundary_no_overflow _ hov (i + 1) (by omega),
      bucketBoundary_no_overflow _ hov i (by omega)]
    ring

theorem reset_shape_witness :
    ((resetState (delta_tick_min_of 1500 3000000)).b.getD 1 ⟨0, 0⟩).tick_boundry
      = 2 * ((resetState (delta_tick_min_of 1500 3000000)).b.getD 0 ⟨0, 0⟩).tick_boundry ∧
    ((resetState (delta_tick_min_of 1500 3000000)).b.getD 3 ⟨0, 0⟩).count = 0 :=
  ⟨(reset_shape 3000000).2.2.2.2.2 (by decide) 0 (by decide),
   (reset_shape 3000000).2.2.2.1 3⟩

/-- C7 fails as stated: resetting with `minimum_detectable_ticks = 0` (which
the code produces whenever `delta_time * frequency_start < 1000000`) yields
all-zero boundaries, so the boundaries are not strictly increasing. -/
theorem reset_strict_counterexample :
    ¬ (((resetState 0).b.getD 0 ⟨0, 0⟩).tick_boundry
         < ((resetState 0).b.getD 1 ⟨0, 0⟩).tick_boundry) := by decide

/-- C7, amended: for every positive `minimum_detectable_ticks` whose doubling
chain does not overflow `uint64_t`, the 16 reset boundaries are strictly
increasing; every count is zero after the reset; and `update_buckets` never
changes any boundary, so strict increase is preserved across an attempt. -/
theorem reset_strict_amended (dtm : Nat) (h0 : 0 < dtm) (hov : dtm * 2 ^ 15 < U64) :
    (∀ i j, i < j → j < 16 →
      ((resetState dtm).b.getD i ⟨0, 0⟩).tick_boundry
        < ((resetState dtm).b.getD j ⟨0, 0⟩).tick_boundry) ∧
    (∀ i, ((resetState dtm).b.getD i ⟨0, 0⟩).count = 0) ∧
    (∀ g st i, ((update_buckets g st).b.getD i ⟨0, 0⟩).tick_boundry
        = (st.b.getD i ⟨0, 0⟩).tick_boundry) :=
  ⟨fun i j hij hj => initialize_buckets_strict dtm h0 hov i j hij hj,
   fun i => reset_count_zero dtm i,
   fun g st i => update_buckets_boundry g st i⟩

theorem reset_strict_amended_witness :
    (((resetState 4500).b.getD 0 ⟨0, 0⟩).tick_boundry
       < ((resetState 4500).b.getD 1 ⟨0, 0⟩).tick_boundry) ∧
    ((update_buckets 9000 (resetState 4500)).b.getD 1 ⟨0, 0⟩).tick_boundry
       = ((resetState 4500).b.getD 1 ⟨0, 0⟩).tick_boundry :=
  ⟨(reset_strict_amended 4500 (by decide) (by decide)).1 0 1 (by decide) (by decide),
   (reset_strict_amended 4500 (by decide) (by decide)).2.2 9000 (resetState 4500) 1⟩

theorem U64_pos : 0 < U64 := by norm_num [U64]

/-- Characterization of the downward scan of `update_buckets`: a `some j`
result is the topmost index below `n` whose boundary is `<=` the gap, and a
`none` result means every boundary below `n` exceeds the gap. -/
theorem findBucketAux_spec (ticks : Nat) (bs : List Bucket) :
    ∀ n, (∀ j, findBucketAux ticks bs n = some j →
           j < n ∧ (bs.getD j ⟨0, 0⟩).tick_boundry ≤ ticks ∧
           ∀ k, j < k → k < n → ticks < (bs.getD k ⟨0, 0⟩).tick_boundry) ∧
         (findBucketAux ticks bs n = none →
           ∀ k, k < n → ticks < (bs.getD k ⟨0, 0⟩).tick_boundry) := by
  intro n
  induction n with
  | zero => exact ⟨fun j h => by simp [findBucketAux] at h, fun _ k hk => by omega⟩
  | succ m ih =>
    constructor
    · intro j hj
      unfold findBucketAux at hj
      split at hj
      · rename_i htop
        cases hj
        exact ⟨by omega, htop, fun k hk hk2 => by omega⟩
      · rename_i htop
        obtain ⟨h1, h2, h3⟩ := ih.1 j hj
        refine ⟨by omega, h2, fun k hk hk2 => ?_⟩
        by_cases hkm : k = m
        · subst hkm; omega
        · exact h3 k hk (by omega)
    · intro hn k hk
      unfold findBucketAux at hn
      split at hn
      · exact absurd hn (by simp)
      · rename_i htop
        by_cases hkm : k = m
        · subst hkm; omega
        · exact ih.2 hn k (by omega)

/-- C1: for a well-formed histogram state (16 buckets, boundary of bucket 0
equal to `delta_tick_min`, boundaries monotone), `update_buckets` is the
identity on gaps below the boundary of bucket 0; otherwise it adds the gap to
`accumulated_lost_ticks` (`uint64_t` addition) and increments exactly the
topmost bucket whose boundary is `<=` the gap - a bucket of maximal boundary
among those `<=` the gap - leaving every other bucket, every boundary and
`delta_tick_min` unchanged. -/
theorem update_buckets_spec (st : JState) (g : Nat)
    (hlen : st.b.length = 16)
    (hb0 : (st.b.getD 0 ⟨0, 0⟩).tick_boundry = st.delta_tick_min)
    (hmono : ∀ j, j < 16 → ∀ i, i ≤ j →
      (st.b.getD i ⟨0, 0⟩).tick_boundry ≤ (st.b.getD j ⟨0, 0⟩).tick_boundry) :
    (g < (st.b.getD 0 ⟨0, 0⟩).tick_boundry → update_buckets g st = st) ∧
    ((st.b.getD 0 ⟨0, 0⟩).tick_boundry ≤ g →
      (update_buckets g st).accumulated_lost_ticks
          = (st.accumulated_lost_ticks + g) % U64 ∧
      ∃ k, k < 16 ∧ (st.b.getD k ⟨0, 0⟩).tick_boundry ≤ g ∧
        (∀ i, k < i → i < 16 → g < (st.b.getD i ⟨0, 0⟩).tick_boundry) ∧
        (∀ i, i < 16 → (st.b.getD i ⟨0, 0⟩).tick_boundry ≤ g →
          (st.b.getD i ⟨0, 0⟩).tick_boundry ≤ (st.b.getD k ⟨0, 0⟩).tick_boundry) ∧
        ((update_buckets g st).b.getD k ⟨0, 0⟩).count
            = ((st.b.getD k ⟨0, 0⟩).count + 1) % U64 ∧
        (∀ i, i ≠ k → (update_buckets g st).b.getD i ⟨0, 0⟩ = st.b.getD i ⟨0, 0⟩) ∧
        (update_buckets g st).delta_tick_min = st.delta_tick_min ∧
        (∀ i, ((update_buckets g st).b.getD i ⟨0, 0⟩).tick_boundry
            = (st.b.getD i ⟨0, 0⟩).tick_boundry)) := by
  constructor
  · intro hg
    rw [hb0] at hg
    unfold update_buckets
    rw [if_neg (by omega)]
  · intro hg
    rw [hb0] at hg
    cases hfind : findBucketAux g st.b 16 with
    | none =>
      exact absurd ((findBucketAux_spec g st.b 16).2 hfind 0 (by omega))
        (by rw [hb0]; omega)
    | some j =>
      obtain ⟨hj16, hjle, hjtop⟩ := (findBucketAux_spec g st.b 16).1 j hfind
      have hupd : update_buckets g st =
          { st with
            accumulated_lost_ticks := (st.accumulated_lost_ticks + g) % U64
            b := st.b.set j { st.b.getD j ⟨0, 0⟩ with
              count := ((st.b.getD j ⟨0, 0⟩).count + 1) % U64 } } := by
        unfold update_buckets
        rw [if_pos (by omega), hfind]
      refine ⟨by rw [hupd], j, hj16, hjle, hjtop, ?_, ?_, ?_, ?_, ?_⟩
      · intro i hi hile
        rcases Nat.lt_or_ge j i with hcase | hcase
        · exact absurd (hjtop i hcase hi) (by omega)
        · exact hmono j hj16 i hcase
      · rw [hupd]
        simp only
        rw [getD_set_self st.b j _ _ (by omega)]
      · intro i hik
        rw [hupd]
        simp only
        rw [getD_set_ne st.b j i _ _ hik]
      · rw [hupd]
      · intro i
        exact update_buckets_boundry g st i

theorem update_buckets_spec_witness :
    (update_buckets 1000 (resetState 1500) = resetState 1500) ∧
    ((update_buckets 3000 (resetState 1500)).accumulated_lost_ticks
       = (0 + 3000) % U64) :=
  ⟨(update_buckets_spec (resetState 1500) 1000 (by decide) (by decide)
      (by decide)).1 (by decide),
   ((update_buckets_spec (resetState 1500) 3000 (by decide) (by decide)
      (by decide)).2 (by decide)).1⟩

/-- What one `update_buckets` call does to `accumulated_lost_ticks`. -/
theorem update_buckets_alt (g : Nat) (st : JState) :
    (update_buckets g st).accumulated_lost_ticks
      = if st.delta_tick_min ≤ g then (st.accumulated_lost_ticks + g) % U64
        else st.accumulated_lost_ticks := by
  unfold update_buckets
  by_cases h : st.delta_tick_min ≤ g
  · rw [if_pos h, if_pos h]
    cases hf : findBucketAux g st.b 16 <;> simp [hf]
  · rw [if_neg h, if_neg h]

/-- Folding `update_buckets` over a gap list accumulates, modulo `2 ^ 64`,
the sum of the gaps that met the threshold. -/
theorem recordAll_alt (gs : List Nat) : ∀ st : JState,
    st.accumulated_lost_ticks < U64 →
    (recordAll gs st).accumulated_lost_ticks
      = (st.accumulated_lost_ticks
          + (gs.filter (fun g => st.delta_tick_min ≤ g)).sum) % U64 := by
  induction gs with
  | nil =>
    intro st h
    simp [recordAll, Nat.mod_eq_of_lt h]
  | cons g gs ih =>
    intro st h
    have hstep : recordAll (g :: gs) st = recordAll gs (update_buckets g st) := rfl
    have hdtm := update_buckets_dtm g st
    by_cases hg : st.delta_tick_min ≤ g
    · have halt : (update_buckets g st).accumulated_lost_ticks
          = (st.accumulated_lost_ticks + g) % U64 := by
        rw [update_buckets_alt, if_pos hg]
      rw [hstep, ih (update_buckets g st) (by rw [halt]; exact Nat.mod_lt _ U64_pos),
        halt, hdtm]
      rw [List.filter_cons_of_pos (by simpa using hg)]
      simp only [List.sum_cons]
      rw [Nat.mod_add_mod]
      ring_nf
    · have halt : (update_buckets g st).accumulated_lost_ticks
          = st.accumulated_lost_ticks := by
        rw [update_buckets_alt, if_neg hg]
      rw [hstep, ih (update_buckets g st) (by rw [halt]; exact h), halt, hdtm]
      rw [List.filter_cons_of_neg (by simpa using hg)]

/-- C5: starting from a reset, after recording any gap sequence the value of
`accumulated_lost_ticks` is the `uint64_t` sum of exactly those gaps that met
the minimum threshold, independent of how they were classified into buckets. -/
theorem accumulated_lost_ticks_spec (dtm : Nat) (gs : List Nat) :
    (recordAll gs (resetState dtm)).accumulated_lost_ticks
      = (gs.filter (fun g => dtm ≤ g)).sum % U64 := by
  have h := recordAll_alt gs (resetState dtm) (by simpa [resetState] using U64_pos)
  simpa [resetState] using h

theorem spin_nil (e so : Nat) (st : JState) : spin e so st [] = none := rfl

theorem spin_cons (e so : Nat) (st : JState) (s : Nat) (rest : List Nat) :
    spin e so st (s :: rest)
      = if s = so then spin e so st rest
        else if e ≤ s then some (update_buckets (sub64 s so) st, s, rest)
        else spin e s (update_buckets (sub64 s so) st) rest := rfl

theorem spinGaps_cons (e so : Nat) (s : Nat) (rest : List Nat) :
    spinGaps e so (s :: rest)
      = if s = so then spinGaps e so rest
        else if e ≤ s then [sub64 s so]
        else sub64 s so :: spinGaps e s rest := rfl

/-- A completed spin loop leaves exactly the state obtained by recording its
gap sequence. -/
theorem spin_recordAll (e : Nat) : ∀ (rs : List Nat) (so : Nat) (st st' : JState)
    (s' : Nat) (rest' : List Nat), spin e so st rs = some (st', s', rest') →
    st' = recordAll (spinGaps e so rs) st := by
  intro rs
  induction rs with
  | nil => intro so st st' s' rest' h; simp [spin_nil] at h
  | cons s rest ih =>
    intro so st st' s' rest' h
    rw [spin_cons] at h
    rw [spinGaps_cons]
    by_cases hso : s = so
    · rw [if_pos hso] at h
      rw [if_pos hso]
      exact ih so st st' s' rest' h
    · rw [if_neg hso] at h
      rw [if_neg hso]
      by_cases he : e ≤ s
      · rw [if_pos he] at h
        rw [if_pos he]
        cases h
        rfl
      · rw [if_neg he] at h
        rw [if_neg he]
        exact ih s (update_buckets (sub64 s so) st) st' s' rest' h

/-- C8: a reading equal to the previous one is skipped (nothing recorded, no
state change); a distinct reading below `end` feeds the `uint64_t` gap to the
histogram and advances the previous reading; a distinct reading at or past
`end` still feeds its gap before the loop stops; and the state of a completed loop
is exactly the fold of `update_buckets` over its gap sequence. -/
theorem spin_loop_spec :
    (∀ e so st rest, spin e so st (so :: rest) = spin e so st rest) ∧
    (∀ e so s st rest, s ≠ so → s < e →
      spin e so st (s :: rest)
        = spin e s (update_buckets (sub64 s so) st) rest) ∧
    (∀ e so s st rest, s ≠ so → e ≤ s →
      spin e so st (s :: rest)
        = some (update_buckets (sub64 s so) st, s, rest)) ∧
    (∀ e rs so st st' s' rest', spin e so st rs = some (st', s', rest') →
      st' = recordAll (spinGaps e so rs) st) := by
  refine ⟨?_, ?_, ?_,
    fun e rs so st st' s' rest' h => spin_recordAll e rs so st st' s' rest' h⟩
  · intro e so st rest
    rw [spin_cons, if_pos rfl]
  · intro e so s st rest h1 h2
    rw [spin_cons, if_neg h1, if_neg (by omega : ¬ e ≤ s)]
  · intro e so s st rest h1 h2
    rw [spin_cons, if_neg h1, if_pos h2]

theorem spin_loop_spec_witness :
    (spin 10 5 (resetState 2) (5 :: [7, 12]) = spin 10 5 (resetState 2) [7, 12]) ∧
    (spin 10 5 (resetState 2) (7 :: [12])
       = spin 10 7 (update_buckets (sub64 7 5) (resetState 2)) [12]) ∧
    (spin 10 7 (resetState 2) (12 :: [])
       = some (update_buckets (sub64 12 7) (resetState 2), 12, [])) ∧
    (update_buckets (sub64 12 7) (resetState 2)
       = recordAll (spinGaps 10 7 [12]) (resetState 2)) :=
  ⟨spin_loop_spec.1 10 5 (resetState 2) [7, 12],
   spin_loop_spec.2.1 10 5 7 (resetState 2) [12] (by decide) (by decide),
   spin_loop_spec.2.2.1 10 7 12 (resetState 2) [] (by decide) (by decide),
   spin_loop_spec.2.2.2 10 [12] 7 (resetState 2)
     (update_buckets (sub64 12 7) (resetState 2)) 12 [] (by decide)⟩

/-- C10: a reading strictly below the previous one is not skipped: the
equality test only filters identical readings, so the `uint64_t` wraparound
difference `2^64 - (so - s)` - a huge positive value - is computed and fed to
the histogram at that moment. -/
theorem spin_nonmonotonic_spec (e so s : Nat) (st : JState) (rest : List Nat)
    (hlt : s < so) (hso : so < U64) :
    sub64 s so = U64 - (so - s) ∧
    0 < sub64 s so ∧
    spin e so st (s :: rest)
      = if e ≤ s then some (update_buckets (U64 - (so - s)) st, s, rest)
        else spin e s (update_buckets (U64 - (so - s)) st) rest := by
  have hsub : sub64 s so = U64 - (so - s) := by
    unfold sub64
    rw [Nat.mod_eq_of_lt (by omega)]
    omega
  refine ⟨hsub, by have := U64_pos; omega, ?_⟩
  rw [spin_cons, if_neg (by omega : ¬ s = so), hsub]

theorem spin_nonmonotonic_spec_witness :
    sub64 3 10 = U64 - 7 ∧ 0 < sub64 3 10 ∧
    spin 100 10 (resetState 2) [3]
      = if (100 : Nat) ≤ 3 then some (update_buckets (U64 - 7) (resetState 2), 3, [])
        else spin 100 3 (update_buckets (U64 - 7) (resetState 2)) [] :=
  spin_nonmonotonic_spec 100 10 3 (resetState 2) [] (by decide) (by decide)

theorem recordAll_length (gs : List Nat) : ∀ st : JState,
    (recordAll gs st).b.length = st.b.length := by
  induction gs with
  | nil => intro st; rfl
  | cons g gs ih =>
    intro st
    have : recordAll (g :: gs) st = recordAll gs (update_buckets g st) := rfl
    rw [this, ih, update_buckets_length]

theorem recordAll_boundry (gs : List Nat) : ∀ (st : JState) (i : Nat),
    ((recordAll gs st).b.getD i ⟨0, 0⟩).tick_boundry
      = (st.b.getD i ⟨0, 0⟩).tick_boundry := by
  induction gs with
  | nil => intro st i; rfl
  | cons g gs ih =>
    intro st i
    have : recordAll (g :: gs) st = recordAll gs (update_buckets g st) := rfl
    rw [this, ih, update_buckets_boundry]

/-- C6, amended: the final output is one unsigned count per bucket in index
order - which is ascending boundary order, the boundaries being strictly
increasing - and a summary value equal to `accumulated_lost_ticks` divided by
the converged ticks-per-second frequency (i.e. lost time in seconds), not by
the total tick count of the whole run. -/
theorem final_output_spec (gs : List Nat) (dtm fs : Nat)
    (h0 : 0 < dtm) (hov : dtm * 2 ^ 15 < U64) :
    ((finalReport (recordAll gs (resetState dtm)) fs).bucketLines.length = 16) ∧
    (∀ i, i < 16 →
      (finalReport (recordAll gs (resetState dtm)) fs).bucketLines.getD i 0
        = ((recordAll gs (resetState dtm)).b.getD i ⟨0, 0⟩).count) ∧
    (∀ i j, i < j → j < 16 →
      ((recordAll gs (resetState dtm)).b.getD i ⟨0, 0⟩).tick_boundry
        < ((recordAll gs (resetState dtm)).b.getD j ⟨0, 0⟩).tick_boundry) ∧
    ((finalReport (recordAll gs (resetState dtm)) fs).lostTime
      = ((recordAll gs (resetState dtm)).accumulated_lost_ticks : ℚ) / (fs : ℚ)) := by
  refine ⟨?_, ?_, ?_, rfl⟩
  · show ((recordAll gs (resetState dtm)).b.map Bucket.count).length = 16
    rw [List.length_map, recordAll_length]
    rfl
  · intro i hi
    show ((recordAll gs (resetState dtm)).b.map Bucket.count).getD i 0
      = ((recordAll gs (resetState dtm)).b.getD i ⟨0, 0⟩).count
    exact List.getD_map _ ⟨0, 0⟩ Bucket.count
  · intro i j hij hj
    rw [recordAll_boundry, recordAll_boundry]
    exact initialize_buckets_strict dtm h0 hov i j hij hj

theorem final_output_spec_witness :
    ((finalReport (recordAll [7] (resetState 3)) 10).bucketLines.length = 16) ∧
    (((recordAll [7] (resetState 3)).b.getD 0 ⟨0, 0⟩).tick_boundry
      < ((recordAll [7] (resetState 3)).b.getD 1 ⟨0, 0⟩).tick_boundry) :=
  ⟨(final_output_spec [7] 3 10 (by decide) (by decide)).1,
   (final_output_spec [7] 3 10 (by decide) (by decide)).2.2.1 0 1 (by decide)
     (by decide)⟩

/-- C6 fails as stated: the summary value is `accumulated_lost_ticks` divided
by the ticks of one second (the converged frequency), not by the total ticks
of the whole run.  With the run length of 60 seconds used by the code, 120 lost ticks
at frequency 2 are reported as 60, not as 120 / (60 * 2) = 1. -/
theorem final_output_counterexample :
    (finalReport ⟨initialize_buckets 1, 120, 1⟩ 2).lostTime
      ≠ (120 : ℚ) / (((60 : Nat) : ℚ) * ((2 : Nat) : ℚ)) := by
  unfold finalReport
  norm_num

/-- C9: the lost-time value is part of the final report unconditionally -
also when it is nonzero - and the exit status is 0 regardless of it. -/
theorem lost_time_nonfatal (st : JState) (fs : Nat)
    (h : st.accumulated_lost_ticks ≠ 0) :
    (finalReport st fs).lostTime
        = (st.accumulated_lost_ticks : ℚ) / (fs : ℚ) ∧
    (finalReport st fs).exitCode = 0 :=
  ⟨rfl, rfl⟩

theorem lost_time_nonfatal_witness :
    ((finalReport ⟨initialize_buckets 1, 5, 1⟩ 10).lostTime
        = (((5 : Nat) : ℚ)) / (((10 : Nat) : ℚ))) ∧
    (finalReport ⟨initialize_buckets 1, 5, 1⟩ 10).exitCode = 0 :=
  lost_time_nonfatal ⟨initialize_buckets 1, 5, 1⟩ 10 (by decide)

theorem calRunJ_cons (rt fr fs fe : Nat) (p : PassInput) (rest : List PassInput) :
    calRunJ rt fr fs fe (p :: rest)
      = match runPassJ ((if fr = 0 then p.freqRead else fr) * 1000 % U64) rt
          (resetState (delta_tick_min_of 1500 (if fr = 0 then p.freqRead else fr)))
          p.readings with
        | none => none
        | some PassOut.abort =>
          calRunJ rt fr (if fr = 0 then p.freqRead else fr)
            (if fr = 0 then 0 else fe) rest
        | some (PassOut.ok st frs fre) =>
          match calibrationStep rt p.sec frs fre fr
              ((if fr = 0 then p.freqRead else fr) * 1000 % U64)
              (if fr = 0 then 0 else fe) p.reread with
          | StepResult.accept =>
            some (st, (if fr = 0 then p.freqRead else fr) * 1000 % U64)
          | StepResult.retry fr' fe' =>
            calRunJ rt fr' (if fr = 0 then p.freqRead else fr) fe' rest := rfl

/-- C2, amended: a completed pass is accepted as the final result iff the
relative wall-clock error is within the 0.01 tolerance AND
`frequency_start` equals `frequency_end` - which, on a pass still running on
the sysfs seed (`frequency_run = 0`), means the confirming frequency re-read
matches the seed.  When the error exceeds the tolerance the assumed frequency
is replaced by the measured one exactly when the tick delta moved forward
(`fre > frs`), and another pass runs; the histogram of an accepted pass is the
final output of the calibration loop. -/
theorem calibration_accept_spec :
    (∀ (rt : Nat) (sec : ℚ) (frs fre fr fs fe reread : Nat),
      calibrationStep rt sec frs fre fr fs fe reread = StepResult.accept ↔
        (|sec - (rt : ℚ)| / (rt : ℚ) ≤ 1 / 100 ∧
         fs = (if fr = 0 then reread * 1000 % U64 else fe))) ∧
    (∀ (rt : Nat) (sec : ℚ) (frs fre fr fs fe reread : Nat),
      |sec - (rt : ℚ)| / (rt : ℚ) > 1 / 100 → frs < fre →
      calibrationStep rt sec frs fre fr fs fe reread
        = StepResult.retry ((⌊((fre - frs : Nat) : ℚ) / (1000 * sec)⌋).toNat)
            ((⌊((fre - frs : Nat) : ℚ) / (1000 * sec)⌋).toNat * 1000 % U64)) ∧
    (∀ (rt : Nat) (sec : ℚ) (frs fre fr fs fe reread : Nat),
      |sec - (rt : ℚ)| / (rt : ℚ) > 1 / 100 → ¬ frs < fre →
      calibrationStep rt sec frs fre fr fs fe reread = StepResult.retry fr fe) ∧
    (∀ (rt fr fs fe : Nat) (p : PassInput) (rest : List PassInput)
        (st : JState) (frs fre : Nat),
      runPassJ ((if fr = 0 then p.freqRead else fr) * 1000 % U64) rt
          (resetState (delta_tick_min_of 1500 (if fr = 0 then p.freqRead else fr)))
          p.readings = some (PassOut.ok st frs fre) →
      calibrationStep rt p.sec frs fre fr
          ((if fr = 0 then p.freqRead else fr) * 1000 % U64)
          (if fr = 0 then 0 else fe) p.reread = StepResult.accept →
      calRunJ rt fr fs fe (p :: rest)
        = some (st, (if fr = 0 then p.freqRead else fr) * 1000 % U64)) := by
  refine ⟨?_, ?_, ?_, ?_⟩
  · intro rt sec frs fre fr fs fe reread
    unfold calibrationStep
    by_cases herr : |sec - (rt : ℚ)| / (rt : ℚ) > 1 / 100
    · rw [if_pos herr]
      constructor
      · intro h
        by_cases hf : frs < fre
        · rw [if_pos hf] at h
          exact absurd h (by simp)
        · rw [if_neg hf] at h
          exact absurd h (by simp)
      · intro ⟨h1, _⟩
        exact absurd herr (by exact not_lt.mpr h1)
    · rw [if_neg herr]
      by_cases hfs : fs = (if fr = 0 then reread * 1000 % U64 else fe)
      · rw [if_pos hfs]
        exact ⟨fun _ => ⟨not_lt.mp herr, hfs⟩, fun _ => rfl⟩
      · rw [if_neg hfs]
        exact ⟨fun h => absurd h (by simp), fun ⟨_, h2⟩ => absurd h2 hfs⟩
  · intro rt sec frs fre fr fs fe reread herr hf
    unfold calibrationStep
    rw [if_pos herr, if_pos hf]
  · intro rt sec frs fre fr fs fe reread herr hf
    unfold calibrationStep
    rw [if_pos herr, if_neg hf]
  · intro rt fr fs fe p rest st frs fre h1 h2
    rw [calRunJ_cons, h1]
    simp only [h2]

/-- C2 fails as stated: on the first pass (no measured correction yet,
`frequency_run = 0`), a relative error of 0 - well within tolerance - does
not suffice for acceptance when the confirming frequency re-read (2000)
differs from the seeded `frequency_start` (1000): the loop runs another
pass. -/
theorem calibration_accept_counterexample :
    (|(60 : ℚ) - ((60 : Nat) : ℚ)| / ((60 : Nat) : ℚ) ≤ 1 / 100) ∧
    calibrationStep 60 60 0 1 0 1000000 0 2000 ≠ StepResult.accept := by
  constructor
  · norm_num
  · unfold calibrationStep
    rw [if_neg (by norm_num)]
    norm_num [U64]
    decide

theorem calibration_accept_spec_witness :
    (calibrationStep 1 1 100 4000 2 2000 2000 9 = StepResult.accept) ∧
    (calibrationStep 60 2 0 2000 5 7 9 11
       = StepResult.retry ((⌊((2000 - 0 : Nat) : ℚ) / (1000 * (2 : ℚ))⌋).toNat)
           ((⌊((2000 - 0 : Nat) : ℚ) / (1000 * (2 : ℚ))⌋).toNat * 1000 % U64)) ∧
    (calibrationStep 60 2 5 3 6 7 9 11 = StepResult.retry 6 9) ∧
    (calRunJ 1 2 5 2000 [⟨7, [100, 5, 3000, 4000], 1, 9⟩]
       = some (update_buckets (sub64 3000 5) (resetState 0), 2000)) := by
  refine ⟨?_, ?_, ?_, ?_⟩
  · exact (calibration_accept_spec.1 1 1 100 4000 2 2000 2000 9).mpr
      ⟨by norm_num, by norm_num⟩
  · exact calibration_accept_spec.2.1 60 2 0 2000 5 7 9 11 (by norm_num) (by norm_num)
  · exact calibration_accept_spec.2.2.1 60 2 5 3 6 7 9 11 (by norm_num) (by norm_num)
  · exact calibration_accept_spec.2.2.2 1 2 5 2000 ⟨7, [100, 5, 3000, 4000], 1, 9⟩ []
      (update_buckets (sub64 3000 5) (resetState 0)) 100 4000 (by decide)
      ((calibration_accept_spec.1 1 1 100 4000 2 2000 2000 9).mpr
        ⟨by norm_num, by norm_num⟩)

namespace NsVar

theorem iterN_cons (fs : Nat) (st : St) (t : Nat) (rest : List Nat) :
    iterN fs st (t :: rest)
      = (if ((t + fs) % U64 + fs) % U64 < t then some IterOut.abort
         else
           match spinN ((t + fs) % U64) t t st rest with
           | none => none
           | some (st', rs') => some (IterOut.ok st' rs')) := rfl

theorem runItersN_succ (fs n : Nat) (st : St) (rs : List Nat) :
    runItersN fs (n + 1) st rs
      = (match iterN fs st rs with
         | none => none
         | some IterOut.abort => some IterOut.abort
         | some (IterOut.ok st' rs') => runItersN fs n st' rs') := rfl

theorem onePassN_cons (fs rt : Nat) (st0 : St) (ts : Nat) (rest : List Nat) :
    onePassN fs rt st0 (ts :: rest)
      = (match runItersN fs rt st0 rest with
         | none => none
         | some IterOut.abort => some PassOut.abort
         | some (IterOut.ok st rs') =>
           match rs' with
           | [] => none
           | te :: _ =>
             if te < ts then some PassOut.abort
             else some (PassOut.ok st ts te)) := rfl

theorem calRunN_cons (rt fr fs : Nat) (p : PassInput) (rest : List PassInput) :
    calRunN rt fr fs (p :: rest)
      = (match onePassN (if fr = 0 then fs else fr) rt
            (resetN 500 (500 * (if fr = 0 then fs else fr) % U64 / 1000000000))
            p.readings with
         | none => none
         | some PassOut.abort => calRunN rt fr (if fr = 0 then fs else fr) rest
         | some (PassOut.ok st ts te) =>
           if |(((⌊((te - ts : Nat) : ℚ) / p.sec⌋).toNat : ℚ))
                - (((if fr = 0 then fs else fr) : Nat) : ℚ)|
              / (((if fr = 0 then fs else fr) : Nat) : ℚ) > 1 / 100 then
             calRunN rt ((⌊((te - ts : Nat) : ℚ) / p.sec⌋).toNat)
               (if fr = 0 then fs else fr) rest
           else some (st, (⌊((te - ts : Nat) : ℚ) / p.sec⌋).toNat)) := rfl

end NsVar

namespace NsVar

/-- C3: before each one-second iteration the variant computes
`end_tick = tick + frequency_start` and
`tick_overflow = end_tick + frequency_start` (both `uint64_t`) and aborts
when `tick_overflow < tick` - a test equivalent to
`tick + 2 * frequency_start < tick` in `uint64_t` arithmetic.  The abort
propagates through the iteration loop and the whole pass, and the
calibration loop then retries with `frequency_run` unchanged, so a pass in
which the counter wrapped contributes nothing to the final histogram. -/
theorem overflow_guard_spec :
    (∀ t fs : Nat,
      (((t + fs) % U64 + fs) % U64 < t) ↔ ((t + 2 * fs) % U64 < t)) ∧
    (∀ (fs : Nat) (st : St) (t : Nat) (rest : List Nat),
      (t + 2 * fs) % U64 < t → iterN fs st (t :: rest) = some IterOut.abort) ∧
    (∀ (fs n : Nat) (st : St) (rs : List Nat),
      iterN fs st rs = some IterOut.abort →
      runItersN fs (n + 1) st rs = some IterOut.abort) ∧
    (∀ (fs rt : Nat) (st0 : St) (ts : Nat) (rest : List Nat),
      runItersN fs rt st0 rest = some IterOut.abort →
      onePassN fs rt st0 (ts :: rest) = some PassOut.abort) ∧
    (∀ (rt fr fs : Nat) (p : PassInput) (rest : List PassInput),
      onePassN (if fr = 0 then fs else fr) rt
          (resetN 500 (500 * (if fr = 0 then fs else fr) % U64 / 1000000000))
          p.readings = some PassOut.abort →
      calRunN rt fr fs (p :: rest)
        = calRunN rt fr (if fr = 0 then fs else fr) rest) := by
  have hiff : ∀ t fs : Nat, ((t + fs) % U64 + fs) % U64 = (t + 2 * fs) % U64 := by
    intro t fs
    rw [Nat.mod_add_mod]
    have harith : t + fs + fs = t + 2 * fs := by ring
    rw [harith]
  refine ⟨fun t fs => by rw [hiff], ?_, ?_, ?_, ?_⟩
  · intro fs st t rest h
    rw [iterN_cons, if_pos (by rw [hiff]; exact h)]
  · intro fs n st rs h
    rw [runItersN_succ, h]
  · intro fs rt st0 ts rest h
    rw [onePassN_cons, h]
  · intro rt fr fs p rest h
    rw [calRunN_cons, h]

theorem overflow_guard_spec_witness :
    (iterN (2 ^ 63 - 1) (resetN 500 0) (5 :: []) = some IterOut.abort) ∧
    (runItersN (2 ^ 63 - 1) 1 (resetN 500 0) [5] = some IterOut.abort) ∧
    (onePassN (2 ^ 63 - 1) 1 (resetN 500 0) (0 :: [5]) = some PassOut.abort) ∧
    (calRunN 1 (2 ^ 63 - 1) 999 [⟨[0, 5], 1⟩]
       = calRunN 1 (2 ^ 63 - 1) (2 ^ 63 - 1) []) :=
  ⟨overflow_guard_spec.2.1 (2 ^ 63 - 1) (resetN 500 0) 5 [] (by decide),
   overflow_guard_spec.2.2.1 (2 ^ 63 - 1) 0 (resetN 500 0) [5] (by decide),
   overflow_guard_spec.2.2.2.1 (2 ^ 63 - 1) 1 (resetN 500 0) 0 [5] (by decide),
   overflow_guard_spec.2.2.2.2 1 (2 ^ 63 - 1) 999 ⟨[0, 5], 1⟩ [] (by decide)⟩

end NsVar
